import Mathlib

/-!
Shallow embedding of the `IASimples` response-selection and feedback-learning
engine of `iabot.py` (danielambrosim/IAbot_Telegram).

Modelling conventions:
* text is a list of characters (`Str`);
* Python dicts, which iterate in insertion order, are association lists;
* float scores are rationals (all score arithmetic in the source is over
  exact dyadic values `+1` and `-0.5`);
* the Wikipedia collaborator and the random default-reply choice are inputs
  to the pipeline function.
-/

abbrev Str := List Char

/-- Python `str.lower` restricted to the character range the bot handles:
ASCII letters and Latin-1 accented letters are case-folded, every other
character is unchanged. -/
def lowerChar (c : Char) : Char :=
  if 'A' ≤ c ∧ c ≤ 'Z' then Char.ofNat (c.toNat + 32)
  else if 'À' ≤ c ∧ c ≤ 'Þ' ∧ c ≠ '×' then Char.ofNat (c.toNat + 32)
  else c

def lowerStr (s : Str) : Str := s.map lowerChar

def isEspaco (c : Char) : Bool :=
  c == ' ' || c == '\t' || c == '\n' || c == '\x0d' || c == '\x0b' || c == '\x0c'

/-- Python `str.strip`: drop whitespace from both ends. -/
def stripStr (s : Str) : Str :=
  ((s.dropWhile isEspaco).reverse.dropWhile isEspaco).reverse

/-- `unidecode` restricted to the Latin-1 range: ASCII is unchanged, accented
Latin letters are transliterated to their base letter, anything else is
dropped (as `unidecode` does for unknown characters). -/
def unidecodeChar (c : Char) : Str :=
  if c.toNat < 128 then [c] else
  match c with
  | 'á' | 'à' | 'â' | 'ã' | 'ä' | 'å' => ['a']
  | 'Á' | 'À' | 'Â' | 'Ã' | 'Ä' | 'Å' => ['A']
  | 'é' | 'è' | 'ê' | 'ë' => ['e']
  | 'É' | 'È' | 'Ê' | 'Ë' => ['E']
  | 'í' | 'ì' | 'î' | 'ï' => ['i']
  | 'Í' | 'Ì' | 'Î' | 'Ï' => ['I']
  | 'ó' | 'ò' | 'ô' | 'õ' | 'ö' => ['o']
  | 'Ó' | 'Ò' | 'Ô' | 'Õ' | 'Ö' => ['O']
  | 'ú' | 'ù' | 'û' | 'ü' => ['u']
  | 'Ú' | 'Ù' | 'Û' | 'Ü' => ['U']
  | 'ç' => ['c']
  | 'Ç' => ['C']
  | 'ñ' => ['n']
  | 'Ñ' => ['N']
  | _ => []

def unidecodeStr (s : Str) : Str := (s.map unidecodeChar).flatten

/-- `unidecode(texto.lower().strip())` — the normalization applied to every
incoming message in `processar_mensagem`. -/
def normalizar (texto : Str) : Str := unidecodeStr (stripStr (lowerStr texto))

/-- A word character for `re.findall(r'\w+', ...)` over the character range in
play: ASCII alphanumerics, underscore, and Latin-1 letters. -/
def isWordChar (c : Char) : Bool :=
  decide (('a' ≤ c ∧ c ≤ 'z') ∨ ('A' ≤ c ∧ c ≤ 'Z') ∨ ('0' ≤ c ∧ c ≤ '9') ∨ c = '_'
    ∨ (0xC0 ≤ c.toNat ∧ c.toNat ≤ 0xFF ∧ c ≠ '×' ∧ c ≠ '÷'))

def palavrasAux : Str → Str → List Str
  | [], acc => if acc.isEmpty then [] else [acc.reverse]
  | c :: rest, acc =>
    if isWordChar c then palavrasAux rest (c :: acc)
    else if acc.isEmpty then palavrasAux rest []
    else acc.reverse :: palavrasAux rest []

/-- `re.findall(r'\w+', s)`: the maximal runs of word characters, in order. -/
def palavras (s : Str) : List Str := palavrasAux s []

/-- `len(set(re.findall(r'\w+', padrao.lower())) & set(re.findall(r'\w+', texto)))`:
the number of distinct tokens of the (lower-cased) pattern that also occur in
the normalized message. -/
def correspondencia (padrao textoNorm : Str) : Nat :=
  ((palavras (lowerStr padrao)).dedup.filter
    (fun w => decide (w ∈ palavras textoNorm))).length

/-- The value stored for each key of the `conhecimento` dict. -/
structure InfoConhecimento where
  resposta : Str
  data_adicao : Str
deriving DecidableEq

/-- The knowledge-matcher loop of `processar_mensagem`: running best reply and
running maximal intersection count, updated only on a strict improvement with
a positive count. -/
def buscaConhAux : List (Str × InfoConhecimento) → Str → Option Str → Nat → Option Str
  | [], _, resposta, _ => resposta
  | (padrao, info) :: rest, tn, resposta, maxCor =>
    if 0 < correspondencia padrao tn ∧ maxCor < correspondencia padrao tn then
      buscaConhAux rest tn (some info.resposta) (correspondencia padrao tn)
    else buscaConhAux rest tn resposta maxCor

def buscaConhecimento (conh : List (Str × InfoConhecimento)) (tn : Str) : Option Str :=
  buscaConhAux conh tn none 0

/-- A learned reply candidate: an entry of `self.respostas[padrao]`. -/
structure Cand where
  texto : Str
  pontuacao : Rat
deriving DecidableEq

/-- Python `max(..., key=lambda x: x["pontuacao"])`: the first candidate in
iteration order attaining the maximal score (later elements replace the
current best only on a strictly greater key). -/
def pyMax : Cand → List Cand → Cand
  | best, [] => best
  | best, c :: rest => pyMax (if best.pontuacao < c.pontuacao then c else best) rest

/-- Python substring containment `a in b`. -/
def ehSubstring : Str → Str → Bool
  | a, [] => a.isEmpty
  | a, b :: bs => a.isPrefixOf (b :: bs) || ehSubstring a bs

/-- `padrao in texto_normalizado or texto_normalizado in padrao`. -/
def bidirecional (padrao tn : Str) : Bool :=
  ehSubstring padrao tn || ehSubstring tn padrao

/-- The learned-response loop of `processar_mensagem`: scan patterns in
storage order; on a containment match with a non-empty candidate list return
the maximal-score candidate's text and stop; on a containment match with an
empty candidate list keep scanning (the `break` sits inside
`if respostas_possiveis:`). -/
def buscaAprendidas : List (Str × List Cand) → Str → Option Str
  | [], _ => none
  | (padrao, cands) :: rest, tn =>
    if bidirecional padrao tn then
      match cands with
      | [] => buscaAprendidas rest tn
      | c :: cs => some (pyMax c cs).texto
    else buscaAprendidas rest tn

/-- Python truthiness `not resposta` for an optional string: `None` and the
empty string are falsy. -/
def falsy : Option Str → Bool
  | none => true
  | some s => s.isEmpty

/-- The reply computed by `IASimples.processar_mensagem`, with the Wikipedia
lookup result and the randomly chosen default reply passed as inputs. -/
def processar_mensagem (conh : List (Str × InfoConhecimento))
    (resp : List (Str × List Cand)) (wikipedia : Option Str)
    (respostaPadrao : Str) (texto : Str) : Str :=
  let tn := normalizar texto
  let r1 := buscaConhecimento conh tn
  let r2 := if falsy r1 then buscaAprendidas resp tn else r1
  let r3 := if falsy r2 then wikipedia else r2
  if falsy r3 then respostaPadrao else r3.getD []

/-- `IASimples.adicionar_conhecimento`: dict upsert keyed by the exact pattern
text — an existing key keeps its position, a new key is appended. -/
def adicionar_conhecimento : List (Str × InfoConhecimento) → Str → Str → Str →
    List (Str × InfoConhecimento)
  | [], pergunta, resposta, agora => [(pergunta, ⟨resposta, agora⟩)]
  | (k, v) :: rest, pergunta, resposta, agora =>
    if k = pergunta then (pergunta, ⟨resposta, agora⟩) :: rest
    else (k, v) :: adicionar_conhecimento rest pergunta resposta agora

/-- A conversation record as written by `_registrar_conversa`. -/
structure Conversa where
  user_id : Int
  timestamp : Str
  pergunta : Str
  resposta : Str
deriving DecidableEq

structure Estatisticas where
  interacoes : Nat
  feedback_positivo : Nat
  feedback_negativo : Nat
  ultima_atualizacao : Str
deriving DecidableEq

/-- The mutable stores of an `IASimples` instance (plus the sqlite feedback
table as an append log). -/
structure EstadoIA where
  conhecimento : List (Str × InfoConhecimento)
  respostas : List (Str × List Cand)
  feedbackDB : List (Str × Int × Str)
  estatisticas : Estatisticas
deriving DecidableEq

/-- The score adjustment of `_aprender_com_feedback`: `+1` when the feedback
type is the exact string `positivo`, `-0.5` otherwise. -/
def delta (tipo : Str) : Rat := if tipo = "positivo".data then 1 else -(1/2)

/-- The candidate-list update of `_aprender_com_feedback`: the first candidate
whose text equals the recorded answer has its score adjusted in place; when
none matches, a fresh candidate with the initial score is appended. -/
def atualizarCands : List Cand → Str → Str → List Cand
  | [], resposta, tipo => [⟨resposta, delta tipo⟩]
  | c :: rest, resposta, tipo =>
    if c.texto = resposta then ⟨c.texto, c.pontuacao + delta tipo⟩ :: rest
    else c :: atualizarCands rest resposta tipo

/-- The learned-responses dict update of `_aprender_com_feedback`: ensure the
key exists (a missing key is appended with an empty list), then update that
key's candidate list in place. -/
def atualizarRespostas : List (Str × List Cand) → Str → Str → Str →
    List (Str × List Cand)
  | [], pergunta, resposta, tipo => [(pergunta, atualizarCands [] resposta tipo)]
  | (k, cs) :: rest, pergunta, resposta, tipo =>
    if k = pergunta then (k, atualizarCands cs resposta tipo) :: rest
    else (k, cs) :: atualizarRespostas rest pergunta resposta tipo

/-- The lookup loop of `_aprender_com_feedback`: the first listed conversation
file whose name contains the message id as a substring. -/
def encontrarConversa : List (Str × Conversa) → Str → Option Conversa
  | [], _ => none
  | (nome, conv) :: rest, mid =>
    if ehSubstring mid nome then some conv else encontrarConversa rest mid

/-- `IASimples._aprender_com_feedback`, with the conversation directory
listing passed as an association of file names to records. The key of the
updated learned pattern is `conversa["pergunta"].lower().strip()` — note: no
`unidecode` here, unlike the message normalization. -/
def aprender_com_feedback (st : EstadoIA) (conversas : List (Str × Conversa))
    (mid tipo : Str) : EstadoIA :=
  match encontrarConversa conversas mid with
  | none => st
  | some conv =>
    let pergunta := stripStr (lowerStr conv.pergunta)
    { st with respostas := atualizarRespostas st.respostas pergunta conv.resposta tipo }

/-- `IASimples.registrar_feedback`: append a row to the feedback table. -/
def registrar_feedback (st : EstadoIA) (mid : Str) (uid : Int) (tipo : Str) : EstadoIA :=
  { st with feedbackDB := st.feedbackDB ++ [(mid, uid, tipo)] }

def splitAux (sep : Char) : Str → Str → List Str
  | [], acc => [acc.reverse]
  | c :: rest, acc =>
    if c = sep then acc.reverse :: splitAux sep rest []
    else splitAux sep rest (c :: acc)

/-- Python `s.split(sep)` for a single-character separator. -/
def pySplit (s : Str) (sep : Char) : List Str := splitAux sep s []

/-- The transport feedback handler `processar_feedback`: split the callback
data on underscores and, when at least three parts are present, record the
feedback event. No other store is touched — in particular the handler never
invokes `aprender_com_feedback`. -/
def processar_feedback (st : EstadoIA) (dadosCallback : Str) (uid : Int) : EstadoIA :=
  let partes := pySplit dadosCallback '_'
  if 3 ≤ partes.length then
    registrar_feedback st (partes.getD 2 []) uid (partes.getD 1 [])
  else st

/-- Per-pattern invariant: each distinct reply text occurs at most once in the
candidate list. -/
def nodupTexts (cs : List Cand) : Prop := (cs.map Cand.texto).Nodup

/-- The score currently stored for reply text `r`: the score of the first
candidate whose text equals `r`, or `0` when absent. -/
def scoreOf (cs : List Cand) (r : Str) : Rat :=
  match cs.find? (fun c => decide (c.texto = r)) with
  | some c => c.pontuacao
  | none => 0

/-! ### Lemmas about the knowledge matcher loop -/

lemma buscaConhAux_fixo (tn : Str) :
    ∀ (l : List (Str × InfoConhecimento)) (resposta : Option Str) (maxCor : Nat),
    (∀ e ∈ l, correspondencia e.1 tn ≤ maxCor) →
    buscaConhAux l tn resposta maxCor = resposta := by
  intro l
  induction l with
  | nil => intro resposta maxCor _; rfl
  | cons hd tl ih =>
    intro resposta maxCor h
    obtain ⟨p, info⟩ := hd
    have hle : correspondencia p tn ≤ maxCor := h (p, info) (by simp)
    rw [buscaConhAux, if_neg (by omega)]
    exact ih resposta maxCor (fun e he => h e (by simp [he]))

lemma buscaConhAux_primeiro (tn p : Str) (info : InfoConhecimento) :
    ∀ (l1 l2 : List (Str × InfoConhecimento)) (resposta : Option Str) (maxCor : Nat),
    maxCor < correspondencia p tn →
    (∀ e ∈ l1, correspondencia e.1 tn < correspondencia p tn) →
    (∀ e ∈ l2, correspondencia e.1 tn ≤ correspondencia p tn) →
    buscaConhAux (l1 ++ (p, info) :: l2) tn resposta maxCor = some info.resposta := by
  intro l1
  induction l1 with
  | nil =>
    intro l2 resposta maxCor hmax _ hl2
    rw [List.nil_append, buscaConhAux, if_pos ⟨by omega, hmax⟩]
    exact buscaConhAux_fixo tn l2 _ _ hl2
  | cons hd tl ih =>
    intro l2 resposta maxCor hmax hl1 hl2
    obtain ⟨q, w⟩ := hd
    have hq : correspondencia q tn < correspondencia p tn := hl1 (q, w) (by simp)
    rw [List.cons_append, buscaConhAux]
    by_cases hcond : 0 < correspondencia q tn ∧ maxCor < correspondencia q tn
    · rw [if_pos hcond]
      exact ih l2 _ _ hq (fun e he => hl1 e (by simp [he])) hl2
    · rw [if_neg hcond]
      exact ih l2 _ _ hmax (fun e he => hl1 e (by simp [he])) hl2

/-- Claim C2: the Knowledge Matcher returns the reply of the first entry (in
insertion/iteration order) whose token-set intersection with the normalized
input is strictly greatest and greater than zero; and when every entry's
intersection count is zero it returns no match, regardless of the size of the
knowledge base. -/
theorem claim_c2 (conh : List (Str × InfoConhecimento)) (tn : Str) :
    ((∀ e ∈ conh, correspondencia e.1 tn = 0) → buscaConhecimento conh tn = none)
    ∧ (∀ (l1 : List (Str × InfoConhecimento)) (p : Str) (info : InfoConhecimento)
        (l2 : List (Str × InfoConhecimento)),
        conh = l1 ++ (p, info) :: l2 →
        0 < correspondencia p tn →
        (∀ e ∈ l1, correspondencia e.1 tn < correspondencia p tn) →
        (∀ e ∈ l2, correspondencia e.1 tn ≤ correspondencia p tn) →
        buscaConhecimento conh tn = some info.resposta) := by
  constructor
  · intro h
    exact buscaConhAux_fixo tn conh none 0 (fun e he => le_of_eq (h e he))
  · intro l1 p info l2 heq hpos hl1 hl2
    subst heq
    exact buscaConhAux_primeiro tn p info l1 l2 none 0 hpos hl1 hl2

theorem claim_c2_witness :
    buscaConhecimento
      [("bom dia".data, ⟨"R1".data, "t".data⟩), ("oi tudo".data, ⟨"R2".data, "t".data⟩)]
      (normalizar "oi tudo bem".data) = some "R2".data :=
  (claim_c2 _ _).2 [("bom dia".data, ⟨"R1".data, "t".data⟩)] "oi tudo".data
    ⟨"R2".data, "t".data⟩ [] rfl (by decide) (by decide) (by decide)

/-! ### Lemmas about the learned-response matcher loop -/

lemma buscaAprendidas_primeiro (tn p : Str) (c : Cand) (cs : List Cand) :
    ∀ (l1 l2 : List (Str × List Cand)),
    bidirecional p tn = true →
    (∀ e ∈ l1, bidirecional e.1 tn = false) →
    buscaAprendidas (l1 ++ (p, c :: cs) :: l2) tn = some (pyMax c cs).texto := by
  intro l1
  induction l1 with
  | nil =>
    intro l2 hp _
    rw [List.nil_append, buscaAprendidas.eq_def]
    simp [hp]
  | cons hd tl ih =>
    intro l2 hp hl1
    obtain ⟨q, qs⟩ := hd
    have hq : bidirecional q tn = false := hl1 (q, qs) (by simp)
    rw [List.cons_append, buscaAprendidas.eq_def]
    simp only [hq, Bool.false_eq_true, if_false]
    exact ih l2 hp (fun e he => hl1 e (by simp [he]))

/-- Claim C3: with no knowledge-base match, the Learned-Response Matcher scans
patterns in storage order and, at the first pattern satisfying bidirectional
substring containment (here: the first one, all earlier patterns failing
containment) whose candidate list is non-empty, returns the candidate reply
with maximum score (Python `max`: ties broken by iteration order) and stops
scanning. -/
theorem claim_c3 (resp : List (Str × List Cand)) (tn : Str)
    (l1 : List (Str × List Cand)) (p : Str) (c : Cand) (cs : List Cand)
    (l2 : List (Str × List Cand)) :
    resp = l1 ++ (p, c :: cs) :: l2 →
    bidirecional p tn = true →
    (∀ e ∈ l1, bidirecional e.1 tn = false) →
    buscaAprendidas resp tn = some (pyMax c cs).texto := by
  intro heq hp hl1
  subst heq
  exact buscaAprendidas_primeiro tn p c cs l1 l2 hp hl1

theorem claim_c3_witness :
    buscaAprendidas [("oi".data, [⟨"ola".data, 2⟩, ⟨"oi tudo bem".data, 5⟩])]
      (normalizar "oi".data) = some "oi tudo bem".data := by
  have h := claim_c3 [("oi".data, [⟨"ola".data, 2⟩, ⟨"oi tudo bem".data, 5⟩])]
    (normalizar "oi".data) [] "oi".data ⟨"ola".data, 2⟩ [⟨"oi tudo bem".data, 5⟩] []
    rfl (by decide) (by decide)
  rw [h]
  decide

lemma buscaAprendidas_pular (tn p : Str) :
    ∀ (xs ys : List (Str × List Cand)),
    buscaAprendidas (xs ++ (p, []) :: ys) tn = buscaAprendidas (xs ++ ys) tn := by
  intro xs
  induction xs with
  | nil =>
    intro ys
    rw [List.nil_append, List.nil_append, buscaAprendidas.eq_def]
    by_cases hp : bidirecional p tn = true
    · simp [hp]
    · simp [hp]
  | cons hd tl ih =>
    intro ys
    obtain ⟨q, qs⟩ := hd
    rw [List.cons_append, List.cons_append, buscaAprendidas.eq_def,
      buscaAprendidas.eq_def]
    by_cases hq : bidirecional q tn = true
    · cases qs with
      | nil => simp [hq, ih]
      | cons c cs => simp [hq]
    · simp [hq, ih]

/-- Claim C10: a learned pattern with an empty candidate list never stops the
scan, whatever its containment relation with the input — removing it from the
store leaves the matcher's result unchanged — and when it is followed by a
containment-matching pattern with a non-empty candidate list, that later
pattern supplies the reply. -/
theorem claim_c10 :
    (∀ (xs : List (Str × List Cand)) (p : Str) (ys : List (Str × List Cand)) (tn : Str),
      buscaAprendidas (xs ++ (p, []) :: ys) tn = buscaAprendidas (xs ++ ys) tn)
    ∧ (∀ (p q : Str) (c : Cand) (cs : List Cand) (tn : Str),
      bidirecional p tn = true → bidirecional q tn = true →
      buscaAprendidas [(p, []), (q, c :: cs)] tn = some (pyMax c cs).texto) := by
  constructor
  · intro xs p ys tn
    exact buscaAprendidas_pular tn p xs ys
  · intro p q c cs tn hp hq
    have h1 := buscaAprendidas_pular tn p [] [(q, c :: cs)]
    rw [List.nil_append, List.nil_append] at h1
    rw [h1]
    simpa using buscaAprendidas_primeiro tn q c cs [] [] hq (by simp)

theorem claim_c10_witness :
    buscaAprendidas [("oi".data, []), ("oi tudo bem".data, [⟨"ola".data, 3⟩])]
      "oi tudo".data = some "ola".data := by
  have h := claim_c10.2 "oi".data "oi tudo bem".data ⟨"ola".data, 3⟩ [] "oi tudo".data
    (by decide) (by decide)
  rw [h]
  rfl

/-! ### Lemmas about the feedback learner -/

lemma delta_positivo : delta "positivo".data = 1 := by
  rw [delta, if_pos rfl]

lemma delta_negativo : delta "negativo".data = -(1/2) := by
  rw [delta, if_neg (by decide)]

lemma atualizarCands_textos (r tipo : Str) :
    ∀ cs : List Cand,
    (atualizarCands cs r tipo).map Cand.texto
      = if r ∈ cs.map Cand.texto then cs.map Cand.texto
        else cs.map Cand.texto ++ [r] := by
  intro cs
  induction cs with
  | nil => simp [atualizarCands]
  | cons c rest ih =>
    by_cases hc : c.texto = r
    · simp [atualizarCands, hc]
    · rw [atualizarCands, if_neg hc]
      have hne : ¬ r = c.texto := fun h => hc h.symm
      by_cases hr : r ∈ rest.map Cand.texto
      · simp [hr, ih, hne]
      · simp [hr, ih, hne]

lemma atualizarCands_nodup (r tipo : Str) (cs : List Cand) (h : nodupTexts cs) :
    nodupTexts (atualizarCands cs r tipo) := by
  unfold nodupTexts at h ⊢
  rw [atualizarCands_textos]
  by_cases hr : r ∈ cs.map Cand.texto
  · simpa [hr] using h
  · rw [if_neg hr]
    rw [List.nodup_append]
    exact ⟨h, List.nodup_singleton r, by simpa using hr⟩

lemma atualizarCands_novo (r tipo : Str) :
    ∀ cs : List Cand, r ∉ cs.map Cand.texto →
    atualizarCands cs r tipo = cs ++ [⟨r, delta tipo⟩] := by
  intro cs
  induction cs with
  | nil => intro _; rfl
  | cons c rest ih =>
    intro h
    have hc : ¬ c.texto = r := by
      intro he
      exact h (by simp [he])
    rw [atualizarCands, if_neg hc, List.cons_append, ih (fun hr => h (by simp [hr]))]

lemma atualizarCands_score (r tipo : Str) :
    ∀ cs : List Cand, r ∈ cs.map Cand.texto →
    scoreOf (atualizarCands cs r tipo) r = scoreOf cs r + delta tipo := by
  intro cs
  induction cs with
  | nil => intro h; simp at h
  | cons c rest ih =>
    intro h
    by_cases hc : c.texto = r
    · rw [atualizarCands, if_pos hc]
      unfold scoreOf
      rw [List.find?_cons_of_pos _ (by simpa using hc),
        List.find?_cons_of_pos _ (by simpa using hc)]
    · rw [atualizarCands, if_neg hc]
      have hr : r ∈ rest.map Cand.texto := by
        rw [List.map_cons, List.mem_cons] at h
        rcases h with h1 | h2
        · exact absurd h1.symm hc
        · exact h2
      unfold scoreOf
      rw [List.find?_cons_of_neg _ (by simpa using hc),
        List.find?_cons_of_neg _ (by simpa using hc)]
      exact ih hr

lemma atualizarRespostas_nodup (pergunta r tipo : Str) :
    ∀ resp : List (Str × List Cand),
    (∀ e ∈ resp, nodupTexts e.2) →
    ∀ e ∈ atualizarRespostas resp pergunta r tipo, nodupTexts e.2 := by
  intro resp
  induction resp with
  | nil =>
    intro _ e he
    rw [atualizarRespostas] at he
    rcases List.mem_singleton.mp he with rfl
    exact atualizarCands_nodup r tipo [] (by simp [nodupTexts])
  | cons hd tl ih =>
    intro h e he
    obtain ⟨k, cs⟩ := hd
    by_cases hk : k = pergunta
    · rw [atualizarRespostas, if_pos hk] at he
      rcases List.mem_cons.mp he with h1 | h2
      · subst h1
        exact atualizarCands_nodup r tipo cs (h (k, cs) (by simp))
      · exact h e (by simp [h2])
    · rw [atualizarRespostas, if_neg hk] at he
      rcases List.mem_cons.mp he with h1 | h2
      · subst h1
        exact h (k, cs) (by simp)
      · exact ih (fun x hx => h x (by simp [hx])) e h2

lemma atualizarRespostas_chaves (pergunta r tipo : Str) :
    ∀ resp : List (Str × List Cand),
    (atualizarRespostas resp pergunta r tipo).map Prod.fst
      = if pergunta ∈ resp.map Prod.fst then resp.map Prod.fst
        else resp.map Prod.fst ++ [pergunta] := by
  intro resp
  induction resp with
  | nil => simp [atualizarRespostas]
  | cons hd tl ih =>
    obtain ⟨k, cs⟩ := hd
    by_cases hk : k = pergunta
    · simp [atualizarRespostas, hk]
    · rw [atualizarRespostas, if_neg hk]
      have hne : ¬ pergunta = k := fun h => hk h.symm
      by_cases hp : pergunta ∈ tl.map Prod.fst
      · simp [hp, ih, hne]
      · simp [hp, ih, hne]

lemma encontrarConversa_none (mid : Str) :
    ∀ conversas : List (Str × Conversa),
    (∀ e ∈ conversas, ehSubstring mid e.1 = false) →
    encontrarConversa conversas mid = none := by
  intro conversas
  induction conversas with
  | nil => intro _; rfl
  | cons hd tl ih =>
    intro h
    obtain ⟨nome, conv⟩ := hd
    have hn : ehSubstring mid nome = false := h (nome, conv) (by simp)
    rw [encontrarConversa, if_neg (by simp [hn])]
    exact ih (fun e he => h e (by simp [he]))

/-- Claim C7: when the message id is not a substring of any conversation-record
identifier in the log, `_aprender_com_feedback` is a no-op — knowledge store,
learned-response store, feedback store and statistics are all unchanged. -/
theorem claim_c7 (st : EstadoIA) (conversas : List (Str × Conversa)) (mid tipo : Str) :
    (∀ e ∈ conversas, ehSubstring mid e.1 = false) →
    aprender_com_feedback st conversas mid tipo = st := by
  intro h
  unfold aprender_com_feedback
  rw [encontrarConversa_none mid conversas h]

def estadoVazio : EstadoIA := ⟨[], [], [], ⟨0, 0, 0, []⟩⟩

def conversasExemplo : List (Str × Conversa) :=
  [("conversa_7_20240101000000".data,
    ⟨7, "20240101000000".data, "oi".data, "ola".data⟩)]

theorem claim_c7_witness :
    aprender_com_feedback estadoVazio conversasExemplo "99".data "positivo".data
      = estadoVazio :=
  claim_c7 estadoVazio conversasExemplo "99".data "positivo".data (by decide)

/-- Claim C5: within a learned pattern's candidate list each distinct reply
text appears at most once: the learn step preserves the no-duplicate invariant
of every pattern's list, feedback for an already-present text leaves the text
list unchanged (the matching candidate is mutated in place, nothing is
appended), and repeated positive feedback adds `+1` to that single candidate's
score, so the score strictly increases. -/
theorem claim_c5 :
    (∀ (st : EstadoIA) (conversas : List (Str × Conversa)) (mid tipo : Str),
      (∀ e ∈ st.respostas, nodupTexts e.2) →
      ∀ e ∈ (aprender_com_feedback st conversas mid tipo).respostas, nodupTexts e.2)
    ∧ (∀ (cs : List Cand) (r tipo : Str), r ∈ cs.map Cand.texto →
      (atualizarCands cs r tipo).map Cand.texto = cs.map Cand.texto)
    ∧ (∀ (cs : List Cand) (r : Str), r ∈ cs.map Cand.texto →
      scoreOf (atualizarCands cs r "positivo".data) r = scoreOf cs r + 1) := by
  refine ⟨?_, ?_, ?_⟩
  · intro st conversas mid tipo h
    unfold aprender_com_feedback
    cases hc : encontrarConversa conversas mid with
    | none => exact h
    | some conv => exact atualizarRespostas_nodup _ _ _ st.respostas h
  · intro cs r tipo h
    rw [atualizarCands_textos, if_pos h]
  · intro cs r h
    rw [atualizarCands_score r "positivo".data cs h, delta_positivo]

theorem claim_c5_witness :
    (∀ e ∈ (aprender_com_feedback estadoVazio conversasExemplo "7".data
      "positivo".data).respostas, nodupTexts e.2)
    ∧ (atualizarCands [⟨"ola".data, 2⟩] "ola".data "positivo".data).map Cand.texto
        = [Cand.mk "ola".data 2].map Cand.texto
    ∧ scoreOf (atualizarCands [⟨"ola".data, 2⟩] "ola".data "positivo".data) "ola".data
        = scoreOf [⟨"ola".data, 2⟩] "ola".data + 1 :=
  ⟨claim_c5.1 estadoVazio conversasExemplo "7".data "positivo".data
    (by intro e he; simp [estadoVazio] at he),
   claim_c5.2.1 [⟨"ola".data, 2⟩] "ola".data "positivo".data (by decide),
   claim_c5.2.2 [⟨"ola".data, 2⟩] "ola".data (by decide)⟩

/-- Claim C6: positive feedback adds exactly `+1` to an existing candidate's
score and negative feedback adds exactly `-0.5`, with no floor or clamping; a
newly created candidate starts at `+1` (positive) or `-0.5` (negative); and
negative feedback on a candidate with score `1` yields score `0.5`. -/
theorem claim_c6 (cs : List Cand) (r : Str) :
    (r ∈ cs.map Cand.texto →
      scoreOf (atualizarCands cs r "positivo".data) r = scoreOf cs r + 1
      ∧ scoreOf (atualizarCands cs r "negativo".data) r = scoreOf cs r - 1/2)
    ∧ (r ∉ cs.map Cand.texto →
      atualizarCands cs r "positivo".data = cs ++ [⟨r, 1⟩]
      ∧ atualizarCands cs r "negativo".data = cs ++ [⟨r, -(1/2)⟩])
    ∧ atualizarCands [⟨r, 1⟩] r "negativo".data = [⟨r, 1/2⟩] := by
  refine ⟨?_, ?_, ?_⟩
  · intro h
    refine ⟨?_, ?_⟩
    · rw [atualizarCands_score r "positivo".data cs h, delta_positivo]
    · rw [atualizarCands_score r "negativo".data cs h, delta_negativo]
      ring
  · intro h
    refine ⟨?_, ?_⟩
    · rw [atualizarCands_novo r "positivo".data cs h, delta_positivo]
    · rw [atualizarCands_novo r "negativo".data cs h, delta_negativo]
  · rw [atualizarCands, if_pos rfl, delta_negativo]
    norm_num

theorem claim_c6_witness :
    scoreOf (atualizarCands [⟨"a".data, 1⟩] "a".data "positivo".data) "a".data
      = scoreOf [⟨"a".data, 1⟩] "a".data + 1
    ∧ scoreOf (atualizarCands [⟨"a".data, 1⟩] "a".data "negativo".data) "a".data
      = scoreOf [⟨"a".data, 1⟩] "a".data - 1/2
    ∧ atualizarCands [] "b".data "negativo".data = [] ++ [⟨"b".data, -(1/2)⟩]
    ∧ atualizarCands [⟨"a".data, 1⟩] "a".data "negativo".data = [⟨"a".data, 1/2⟩] :=
  ⟨((claim_c6 [⟨"a".data, 1⟩] "a".data).1 (by decide)).1,
   ((claim_c6 [⟨"a".data, 1⟩] "a".data).1 (by decide)).2,
   ((claim_c6 [] "b".data).2.1 (by decide)).2,
   (claim_c6 [] "a".data).2.2⟩

/-- Claim C4 (counterexample): the learned-pattern key is *not* the message
normalization of the recorded question. For the question `Olá` the stored key
is `olá` (lower-cased and stripped only), while the normalization applied to
incoming messages yields `ola` (diacritics stripped); the two differ. -/
theorem claim_c4_counterexample :
    (aprender_com_feedback estadoVazio
      [("conversa_7_1".data, ⟨7, "1".data, "Olá".data, "legal".data⟩)]
      "7".data "positivo".data).respostas.map Prod.fst = ["olá".data]
    ∧ normalizar "Olá".data = "ola".data
    ∧ ("olá".data : Str) ≠ "ola".data := by
  refine ⟨by decide, by decide, by decide⟩

/-- Claim C4 (amended): `_aprender_com_feedback` keys the learned pattern it
creates or updates by the lower-cased, whitespace-stripped recorded question
text — with no diacritic stripping and no tokenization, unlike the
normalization applied to incoming messages. -/
theorem claim_c4 (st : EstadoIA) (conversas : List (Str × Conversa))
    (mid tipo : Str) (conv : Conversa) :
    encontrarConversa conversas mid = some conv →
    (aprender_com_feedback st conversas mid tipo).respostas.map Prod.fst
      = if stripStr (lowerStr conv.pergunta) ∈ st.respostas.map Prod.fst
        then st.respostas.map Prod.fst
        else st.respostas.map Prod.fst ++ [stripStr (lowerStr conv.pergunta)] := by
  intro h
  unfold aprender_com_feedback
  rw [h]
  exact atualizarRespostas_chaves _ _ _ st.respostas

theorem claim_c4_witness :
    (aprender_com_feedback estadoVazio conversasExemplo "7".data
      "positivo".data).respostas.map Prod.fst
      = if stripStr (lowerStr "oi".data) ∈ estadoVazio.respostas.map Prod.fst
        then estadoVazio.respostas.map Prod.fst
        else estadoVazio.respostas.map Prod.fst ++ [stripStr (lowerStr "oi".data)] :=
  claim_c4 estadoVazio conversasExemplo "7".data "positivo".data
    ⟨7, "20240101000000".data, "oi".data, "ola".data⟩ (by decide)

/-- Claim C1 (code defect): a feedback submission through the transport
handler only appends the FeedbackEvent (`registrar_feedback`);
`_aprender_com_feedback` is invoked nowhere in the program, so the
learned-response store is left unchanged — although running the learn step on
the same state would have changed it. -/
theorem claim_c1 :
    (processar_feedback estadoVazio "feedback_positivo_7".data 7).respostas
      = estadoVazio.respostas
    ∧ (processar_feedback estadoVazio "feedback_positivo_7".data 7).feedbackDB
      = [("7".data, 7, "positivo".data)]
    ∧ (aprender_com_feedback estadoVazio conversasExemplo "7".data
        "positivo".data).respostas ≠ estadoVazio.respostas := by
  refine ⟨by decide, by decide, by decide⟩

lemma falsy_none : falsy none = true := rfl

lemma falsy_some_nil : falsy (some ([] : Str)) = true := rfl

lemma buscaConhecimento_nil (tn : Str) : buscaConhecimento [] tn = none := rfl

lemma buscaAprendidas_nil (tn : Str) : buscaAprendidas [] tn = none := rfl

lemma etapaWiki (r2 : Option Str) (padrao : Str) :
    (if falsy (if falsy r2 = true then some ([] : Str) else r2) = true then padrao
      else (if falsy r2 = true then some ([] : Str) else r2).getD [])
    = (if falsy (if falsy r2 = true then (none : Option Str) else r2) = true then padrao
      else (if falsy r2 = true then (none : Option Str) else r2).getD []) := by
  by_cases h : falsy r2 = true
  · simp only [if_pos h]
    rfl
  · simp only [if_neg h]

/-- Claim C9: an empty-string result from any pipeline stage is treated as no
match. An empty best reply from the knowledge stage makes the pipeline behave
exactly as with an empty knowledge base; an empty learned reply behaves
exactly as with an empty learned store; an empty Wikipedia extract behaves
exactly as no extract at all. -/
theorem claim_c9 (conh : List (Str × InfoConhecimento)) (resp : List (Str × List Cand))
    (wikipedia : Option Str) (padrao texto : Str) :
    (buscaConhecimento conh (normalizar texto) = some [] →
      processar_mensagem conh resp wikipedia padrao texto
        = processar_mensagem [] resp wikipedia padrao texto)
    ∧ (buscaAprendidas resp (normalizar texto) = some [] →
      processar_mensagem conh resp wikipedia padrao texto
        = processar_mensagem conh [] wikipedia padrao texto)
    ∧ processar_mensagem conh resp (some []) padrao texto
      = processar_mensagem conh resp none padrao texto := by
  refine ⟨?_, ?_, ?_⟩
  · intro h
    simp [processar_mensagem, h, buscaConhecimento_nil, falsy_some_nil, falsy_none]
  · intro h
    by_cases hb : falsy (buscaConhecimento conh (normalizar texto)) = true
    · simp [processar_mensagem, hb, h, buscaAprendidas_nil, falsy_some_nil, falsy_none]
    · simp [processar_mensagem, hb]
  · exact etapaWiki _ padrao

theorem claim_c9_witness :
    (processar_mensagem [("oi".data, ⟨[], "t".data⟩)] [("oi".data, [⟨"ola".data, 1⟩])]
      none "indefinida".data "oi".data
      = processar_mensagem [] [("oi".data, [⟨"ola".data, 1⟩])]
        none "indefinida".data "oi".data)
    ∧ (processar_mensagem [] [("oi".data, [⟨[], 1⟩])] (some "w".data)
        "indefinida".data "oi".data
      = processar_mensagem [] [] (some "w".data) "indefinida".data "oi".data) :=
  ⟨(claim_c9 [("oi".data, ⟨[], "t".data⟩)] [("oi".data, [⟨"ola".data, 1⟩])]
      none "indefinida".data "oi".data).1 (by decide),
   (claim_c9 [] [("oi".data, [⟨[], 1⟩])] (some "w".data)
      "indefinida".data "oi".data).2.1 (by decide)⟩

/-- Decomposition of the dict upsert: with unique keys, the result splits
around the taught entry, every other entry coming from the original base with
a different key. -/
lemma adicionar_decomp (pergunta resposta agora : Str) :
    ∀ kb : List (Str × InfoConhecimento), (kb.map Prod.fst).Nodup →
    ∃ l1 l2, adicionar_conhecimento kb pergunta resposta agora
        = l1 ++ (pergunta, ⟨resposta, agora⟩) :: l2
      ∧ (∀ e ∈ l1, e.1 ≠ pergunta ∧ e ∈ kb)
      ∧ (∀ e ∈ l2, e.1 ≠ pergunta ∧ e ∈ kb) := by
  intro kb
  induction kb with
  | nil =>
    intro _
    exact ⟨[], [], rfl, by simp, by simp⟩
  | cons hd tl ih =>
    intro hnd
    obtain ⟨k, v⟩ := hd
    rw [List.map_cons, List.nodup_cons] at hnd
    by_cases hk : k = pergunta
    · refine ⟨[], tl, ?_, by simp, ?_⟩
      · rw [adicionar_conhecimento, if_pos hk, List.nil_append]
      · intro e he
        refine ⟨?_, List.mem_cons_of_mem _ he⟩
        intro heq
        exact hnd.1 (by rw [hk, ← heq]; exact List.mem_map.mpr ⟨e, he, rfl⟩)
    · obtain ⟨l1, l2, heq, h1, h2⟩ := ih hnd.2
      refine ⟨(k, v) :: l1, l2, ?_, ?_, ?_⟩
      · rw [adicionar_conhecimento, if_neg hk, heq, List.cons_append]
      · intro e he
        rcases List.mem_cons.mp he with rfl | hm
        · exact ⟨hk, by simp⟩
        · exact ⟨(h1 e hm).1, List.mem_cons_of_mem _ (h1 e hm).2⟩
      · intro e he
        exact ⟨(h2 e he).1, List.mem_cons_of_mem _ (h2 e he).2⟩

/-- Claim C8 (amended): after teaching a pattern, querying with a text whose
normalized token set includes all of the pattern's tokens returns exactly the
curated reply, provided the pattern has at least one token in common with the
query and every *other* knowledge entry has a strictly smaller token
intersection with the query (in particular when the taught entry is the only
one); without that proviso an earlier or stronger entry wins instead. -/
theorem claim_c8 (kb : List (Str × InfoConhecimento)) (pergunta resposta agora texto : Str)
    (hnd : (kb.map Prod.fst).Nodup)
    (htok : palavras (lowerStr pergunta) ≠ [])
    (hsub : ∀ w ∈ palavras (lowerStr pergunta), w ∈ palavras (normalizar texto))
    (hdom : ∀ e ∈ kb, e.1 ≠ pergunta →
      correspondencia e.1 (normalizar texto) < correspondencia pergunta (normalizar texto)) :
    buscaConhecimento (adicionar_conhecimento kb pergunta resposta agora)
      (normalizar texto) = some resposta := by
  have hfull : correspondencia pergunta (normalizar texto)
      = (palavras (lowerStr pergunta)).dedup.length := by
    unfold correspondencia
    congr 1
    apply List.filter_eq_self.mpr
    intro w hw
    exact decide_eq_true (hsub w (List.mem_dedup.mp hw))
  have hpos : 0 < correspondencia pergunta (normalizar texto) := by
    rw [hfull]
    refine List.length_pos.mpr ?_
    intro hnil
    exact htok ((List.dedup_eq_nil _).mp hnil)
  obtain ⟨l1, l2, heq, h1, h2⟩ := adicionar_decomp pergunta resposta agora kb hnd
  rw [buscaConhecimento, heq]
  exact buscaConhAux_primeiro (normalizar texto) pergunta ⟨resposta, agora⟩ l1 l2 none 0 hpos
    (fun e he => hdom e (h1 e he).2 (h1 e he).1)
    (fun e he => le_of_lt (hdom e (h2 e he).2 (h2 e he).1))

/-- Claim C8 (counterexample): with `a b → R1` already taught, teaching
`a → R2` and querying `a b` — whose token set includes every token of the
taught pattern `a` — returns `R1`, not the taught reply `R2`. -/
theorem claim_c8_counterexample :
    (∀ w ∈ palavras (lowerStr "a".data), w ∈ palavras (normalizar "a b".data))
    ∧ buscaConhecimento
        (adicionar_conhecimento [("a b".data, ⟨"R1".data, "t".data⟩)]
          "a".data "R2".data "t".data)
        (normalizar "a b".data) = some "R1".data
    ∧ ("R1".data : Str) ≠ "R2".data := by
  refine ⟨by decide, by decide, by decide⟩

theorem claim_c8_witness :
    buscaConhecimento
      (adicionar_conhecimento [] "qual sua linguagem".data
        "Sou feita em código".data "t".data)
      (normalizar "qual é a sua linguagem favorita".data)
      = some "Sou feita em código".data :=
  claim_c8 [] "qual sua linguagem".data "Sou feita em código".data "t".data
    "qual é a sua linguagem favorita".data (by simp) (by decide) (by decide)
    (fun e he => absurd he (List.not_mem_nil e))
